import Mathlib

/-!
Verification development for the SmartEcom matching-and-pricing pipeline
(backend/controllers/KrogerController.js and the part_000 variant of the
same controller). Each JavaScript function used by the checked claims is
shallowly embedded as an executable Lean definition; machine floats are
modelled as exact rationals, JS `Map` semantics as association lists, and
external calls (classification oracle, retailer catalogs, remote cart) as
explicit function parameters whose invocations are recorded in traces.
-/

namespace SmartEcom

/-! ## JS-style generic helpers -/

/-- First-occurrence deduplication by a key, the semantics of a JS `Set`
of seen keys guarding a push loop (insertion order, first wins). -/
def dedupFirstBy {α κ : Type} [DecidableEq κ] (key : α → κ) : List α → List α :=
  go []
where
  go (seen : List κ) : List α → List α
    | [] => []
    | x :: xs => if key x ∈ seen then go seen xs else x :: go (key x :: seen) xs

/-- First-occurrence deduplication, the semantics of
`Array.from(new Set(xs))` in JavaScript (insertion order, first wins). -/
def dedupFirst {α : Type} [DecidableEq α] : List α → List α :=
  dedupFirstBy id

/-- Lookup in a JS `Map` built by `new Map(entries)`: later entries for the
same key overwrite earlier ones, so a get returns the latest binding. -/
def jsMapGet {α β : Type} [DecidableEq α] (entries : List (α × β)) (key : α) :
    Option β :=
  (entries.reverse.find? (fun e => e.1 = key)).map (fun e => e.2)

/-- The effect of `map.set(k, v)` on a JS `Map` represented as an ordered
association list: replace in place if the key exists, else append. -/
def jsMapSet {α β : Type} [DecidableEq α] (m : List (α × β)) (k : α) (v : β) :
    List (α × β) :=
  if m.any (fun e => e.1 = k) then
    m.map (fun e => if e.1 = k then (k, v) else e)
  else m ++ [(k, v)]

/-! ## String helpers shared by the controller -/

/-- JS `\w` word-character class (ASCII letters, digits, underscore). -/
def isWordChar (c : Char) : Bool := c.isAlphanum || c = '_'

/-- Collapse runs of spaces to a single space (the effect of
`.replace(/\s+/g, " ")` after whitespace has been mapped to spaces). -/
def squashSpaces (cs : List Char) : List Char :=
  cs.foldr (fun c acc => if c = ' ' && acc.head? = some ' ' then acc else c :: acc) []

/-- Remove leading and trailing spaces, the effect of `.trim()` on a
string whose whitespace is all plain spaces. -/
def trimSpaces (cs : List Char) : List Char :=
  ((cs.dropWhile (fun c => c = ' ')).reverse.dropWhile (fun c => c = ' ')).reverse

/-- ASCII model of JS `toLowerCase()` applied per character (the inputs
relevant to the claims are ASCII). -/
def asciiToLower (c : Char) : Char :=
  if 'A' ≤ c ∧ c ≤ 'Z' then Char.ofNat (c.toNat + 32) else c

/-- The normalization prefix of `parseUnitQuantityFromText`:
`String(text || "").toLowerCase().replace(/\s+/g, " ").trim()`. -/
def normalizeSizeText (text : String) : List Char :=
  trimSpaces (squashSpaces (text.data.map
    (fun c => if (asciiToLower c).isWhitespace then ' ' else asciiToLower c)))

/-! ## parseUnitQuantityFromText

Character-level model of the regex patterns of
`parseUnitQuantityFromText` (KrogerController.js lines 154-236). Each JS
regex `\b(\d+(?:\.\d+)?)\s*UNIT\b` is modelled by a scanner that walks the
collapsed lowercase string, checks the word boundary before the number,
parses the decimal number, skips optional spaces, matches the unit
literal(s), and checks the word boundary after. Number literals and all
arithmetic use exact rationals in place of IEEE doubles.
-/

/-- Exact decimal number `mant / 10 ^ exp`, the representation used for
quantities parsed out of size strings; all of its arithmetic is natural
number arithmetic, and `toRat` injects it into the rationals. -/
structure Dec where
  mant : Nat
  exp : Nat
deriving DecidableEq, Repr

/-- The rational value of a decimal. -/
def Dec.toRat (d : Dec) : Rat := (d.mant : Rat) / 10 ^ d.exp

/-- Exact product of two decimals. -/
def Dec.mul (a b : Dec) : Dec := ⟨a.mant * b.mant, a.exp + b.exp⟩

/-- Parse `\d+(\.\d+)?` at the head of the character list, returning its
exact decimal value and the rest of the input. -/
def parseNumAt (cs : List Char) : Option (Dec × List Char) :=
  let ds := cs.takeWhile (fun c => c.isDigit)
  let rest := cs.dropWhile (fun c => c.isDigit)
  if ds.isEmpty then none
  else
    let intPart : Nat := ds.foldl (fun acc c => acc * 10 + (c.toNat - 48)) 0
    match rest with
    | '.' :: r2 =>
        let fs := r2.takeWhile (fun c => c.isDigit)
        let r3 := r2.dropWhile (fun c => c.isDigit)
        if fs.isEmpty then some (⟨intPart, 0⟩, rest)
        else
          let frac : Nat := fs.foldl (fun acc c => acc * 10 + (c.toNat - 48)) 0
          some (⟨intPart * 10 ^ fs.length + frac, fs.length⟩, r3)
    | _ => some (⟨intPart, 0⟩, rest)

/-- Skip the optional whitespace of a `\s*` in a collapsed string. -/
def skipSpaces (cs : List Char) : List Char := cs.dropWhile (fun c => c = ' ')

/-- Match a literal chunk of a regex at the head of the input. -/
def matchLit (lit : List Char) (cs : List Char) : Option (List Char) :=
  if cs.take lit.length = lit then some (cs.drop lit.length) else none

/-- Match a list of literal chunks, each preceded by `\s*`. -/
def matchChunksRest : List (List Char) → List Char → Option (List Char)
  | [], cs => some cs
  | l :: ls, cs => (matchLit l (skipSpaces cs)).bind (matchChunksRest ls)

/-- Match a list of literal chunks where only the chunks after the first
are preceded by `\s*` (used inside alternation groups). -/
def matchChunksHead : List (List Char) → List Char → Option (List Char)
  | [], cs => some cs
  | l :: ls, cs => (matchLit l cs).bind (matchChunksRest ls)

/-- A `\b` holds after a match when the next character is absent or not a
word character. -/
def boundaryAfter (cs : List Char) : Bool :=
  match cs.head? with
  | none => true
  | some c => !isWordChar c

/-- Scan the input left to right, attempting the pattern at every
position where the word boundary before the match holds; the first
success wins, mirroring `String.prototype.match` of an unanchored regex. -/
def scanPatGo {α : Type} (f : List Char → Option α) :
    Option Char → List Char → Option α
  | _, [] => none
  | prev, c :: rest =>
      let okHere := match prev with
        | none => true
        | some p => !isWordChar p
      match (if okHere then f (c :: rest) else none) with
      | some r => some r
      | none => scanPatGo f (some c) rest

/-- Entry point of the boundary-respecting scanner. -/
def scanPat {α : Type} (f : List Char → Option α) (cs : List Char) : Option α :=
  scanPatGo f none cs

/-- Chunk lists from plain strings. -/
def chunksOf (ss : List String) : List (List Char) := ss.map String.data

/-- Unit tokens accepted by the multi-pack pattern of the parser. -/
inductive SizeUnit
  | floz | oz | lb | g | kg | ml | l | ct | count | pk | pack
deriving DecidableEq, Repr

/-- Alternatives of the unit group in the multi-pack regex, in the order
the regex alternation tries them. -/
def multUnitAlts : List (List (List Char) × SizeUnit) :=
  [ (chunksOf ["fl", "oz"], .floz), (chunksOf ["floz"], .floz),
    (chunksOf ["oz"], .oz), (chunksOf ["lb"], .lb), (chunksOf ["g"], .g),
    (chunksOf ["kg"], .kg), (chunksOf ["ml"], .ml), (chunksOf ["l"], .l),
    (chunksOf ["ct"], .ct), (chunksOf ["count"], .count),
    (chunksOf ["pk"], .pk), (chunksOf ["pack"], .pack) ]

/-- Try the unit alternatives in order; each must be followed by a word
boundary, else the next alternative is tried (regex backtracking). -/
def matchUnitAlt : List (List (List Char) × SizeUnit) → List Char → Option SizeUnit
  | [], _ => none
  | (chs, u) :: alts, cs =>
      match matchChunksHead chs cs with
      | some r => if boundaryAfter r then some u else matchUnitAlt alts cs
      | none => matchUnitAlt alts cs

/-- The multi-pack pattern `\b(\d+(?:\.\d+)?)\s*x\s*(\d+(?:\.\d+)?)\s*(UNIT)\b`
applied at one position. -/
def multAt (cs : List Char) : Option (Dec × Dec × SizeUnit) :=
  (parseNumAt cs).bind fun a =>
    (matchLit ['x'] (skipSpaces a.2)).bind fun r1 =>
      (parseNumAt (skipSpaces r1)).bind fun b =>
        (matchUnitAlt multUnitAlts (skipSpaces b.2)).map fun u => (a.1, b.1, u)

/-- The `\bpack\s*of\s*(\d+(?:\.\d+)?)\b` pattern applied at one position. -/
def packOfAt (cs : List Char) : Option Dec :=
  (matchLit "pack".data cs).bind fun r1 =>
    (matchLit "of".data (skipSpaces r1)).bind fun r2 =>
      (parseNumAt (skipSpaces r2)).bind fun p =>
        if boundaryAfter p.2 then some p.1 else none

/-- Match one of the given unit alternatives after a number, each
preceded by `\s*` and followed by `\b`. -/
def matchAltsAfterNum : List (List String) → List Char → Option Unit
  | [], _ => none
  | a :: rest, cs =>
      match matchChunksRest (chunksOf a) cs with
      | some r => if boundaryAfter r then some () else matchAltsAfterNum rest cs
      | none => matchAltsAfterNum rest cs

/-- A number-then-unit regex `\b(\d+(?:\.\d+)?)\s*(ALT1|ALT2|…)\b` scanned
over the whole string; returns the first structural match's number. -/
def pattNumAlts (alts : List (List String)) (t : List Char) : Option Dec :=
  scanPat (fun cs =>
    (parseNumAt cs).bind fun p =>
      (matchAltsAfterNum alts p.2).map fun _ => p.1) t

/-- Unit kinds of a parsed quantity. -/
inductive UnitKind
  | count | volume_floz | weight_oz
deriving DecidableEq, Repr

/-- Result of the unit-quantity parser. -/
structure UnitParse where
  kind : UnitKind
  qty : Dec
deriving DecidableEq, Repr

/-- Conversion constant `0.0338140227` (ml to fl oz). -/
def mlToFlOz : Dec := ⟨338140227, 10⟩

/-- Conversion constant `33.8140227` (liter to fl oz). -/
def literToFlOz : Dec := ⟨338140227, 7⟩

/-- Conversion constant `0.0352739619` (gram to oz). -/
def gToOz : Dec := ⟨352739619, 10⟩

/-- Conversion constant `35.2739619` (kg to oz). -/
def kgToOz : Dec := ⟨352739619, 7⟩

/-- Resolution of the multi-pack total: the source re-parses
`"<total> <unit>"` (unit with whitespace removed); for a recognized unit
and a positive total that recursion lands exactly in that unit's branch,
which this function performs directly. -/
def unitFor (u : SizeUnit) (q : Dec) : Option UnitParse :=
  if 0 < q.mant then
    some (match u with
      | .ct | .count | .pk | .pack => ⟨.count, q⟩
      | .floz => ⟨.volume_floz, q⟩
      | .ml => ⟨.volume_floz, q.mul mlToFlOz⟩
      | .l => ⟨.volume_floz, q.mul literToFlOz⟩
      | .oz => ⟨.weight_oz, q⟩
      | .lb => ⟨.weight_oz, q.mul ⟨16, 0⟩⟩
      | .g => ⟨.weight_oz, q.mul gToOz⟩
      | .kg => ⟨.weight_oz, q.mul kgToOz⟩)
  else none

/-- Model of `parseUnitQuantityFromText` (KrogerController.js 154-236):
normalize, then try the patterns in source order — multi-pack, pack-of,
count (`ct|count`), pack (`pk|pack`), dash-pack, fluid ounce, ml, liter,
oz, lb, g, kg. A pattern whose first structural match fails the
positivity guard yields nothing and the next pattern is tried, exactly as
the early-return structure of the source behaves. -/
def parseUnitQuantityFromText (text : String) : Option UnitParse :=
  let s := normalizeSizeText text
  if s.isEmpty then none
  else
    let t := s.map (fun c => if c = '×' then 'x' else c)
    let guarded (r : Option Dec) (k : Dec → UnitParse) : Option UnitParse :=
      match r with
      | some n => if 0 < n.mant then some (k n) else none
      | none => none
    let multRes : Option UnitParse :=
      match scanPat multAt t with
      | some (a, b, u) => if 0 < a.mant ∧ 0 < b.mant then unitFor u (a.mul b) else none
      | none => none
    multRes <|>
    guarded (scanPat packOfAt t) (fun n => ⟨.count, n⟩) <|>
    guarded (pattNumAlts [["ct"], ["count"]] t) (fun n => ⟨.count, n⟩) <|>
    guarded (pattNumAlts [["pk"], ["pack"]] t) (fun n => ⟨.count, n⟩) <|>
    guarded (pattNumAlts [["-", "pack"]] t) (fun n => ⟨.count, n⟩) <|>
    guarded (pattNumAlts [["fl", "oz"], ["floz"]] t) (fun n => ⟨.volume_floz, n⟩) <|>
    guarded (pattNumAlts [["ml"]] t) (fun n => ⟨.volume_floz, n.mul mlToFlOz⟩) <|>
    guarded (pattNumAlts [["l"]] t) (fun n => ⟨.volume_floz, n.mul literToFlOz⟩) <|>
    guarded (pattNumAlts [["oz"]] t) (fun n => ⟨.weight_oz, n⟩) <|>
    guarded (pattNumAlts [["lb"]] t) (fun n => ⟨.weight_oz, n.mul ⟨16, 0⟩⟩) <|>
    guarded (pattNumAlts [["g"]] t) (fun n => ⟨.weight_oz, n.mul gToOz⟩) <|>
    guarded (pattNumAlts [["kg"]] t) (fun n => ⟨.weight_oz, n.mul kgToOz⟩)

/-! ## Budget comparison: bestComparableOffer and chooseWinnerForIngredient

Embedding of KrogerController.js lines 238-334. JS number fields read off
dynamic records are modelled by `JSNum`, so that the `typeof`/`Number`/
`Number.isFinite` coercions of the source are explicit.
-/

/-- A JS numeric field as found on a product record: a finite number, a
non-finite number (NaN or Infinity), or an absent field. -/
inductive JSNum
  | num (q : ℚ)
  | nan
  | missing
deriving DecidableEq

/-- The value of the local `price` in `bestComparableOffer`
(`typeof p?.price === "number" ? p.price : Number(p?.price || 0)`): a
present number keeps its value, an absent field coerces to `0`, and a
non-finite number stays non-finite, which `none` stands for. -/
def jsPriceVar : JSNum → Option ℚ
  | .num q => some q
  | .missing => some 0
  | .nan => none

/-- The fields of a product record that `bestComparableOffer` reads:
`price`, `title`, `size`, and the string fields
`raw.size, raw.sizeString, raw.packageSize, raw.packSize, raw.name`
collected in order (`rawSizes`). -/
structure BProduct where
  price : JSNum
  title : String
  size : String
  rawSizes : List String
deriving DecidableEq

/-- The ordered candidate texts for unit parsing: the size when truthy,
then the truthy raw record fields, then the title. -/
def offerCandidates (p : BProduct) : List String :=
  (if p.size ≠ "" then [p.size] else []) ++
    p.rawSizes.filter (fun s => s ≠ "") ++ [p.title]

/-- A per-product offer as assembled inside `bestComparableOffer`. -/
structure Offer where
  product : BProduct
  price : ℚ
  unitKind : Option UnitKind
  unitQty : Option Dec
  unitPrice : Option ℚ
  basis : String
deriving DecidableEq

/-- The offer without unit information (`basis: "price"`). -/
def noUnitOffer (p : BProduct) (priceVar : Option ℚ) : Offer :=
  { product := p, price := priceVar.getD 0, unitKind := none,
    unitQty := none, unitPrice := none, basis := "price" }

/-- Build the offer for one product: parse the first candidate text that
yields a quantity; `price` falls back to 0 when not finite, and
`unitPrice` is populated only when a positive quantity was parsed and
`price / qty` is finite. -/
def mkOffer (p : BProduct) : Offer :=
  let priceVar := jsPriceVar p.price
  match (offerCandidates p).findSome? parseUnitQuantityFromText with
  | some u =>
      if 0 < u.qty.mant then
        { product := p
          price := priceVar.getD 0
          unitKind := some u.kind
          unitQty := some u.qty
          unitPrice := priceVar.map (fun v => v / u.qty.toRat)
          basis := "unit" }
      else noUnitOffer p priceVar
  | none => noUnitOffer p priceVar

/-- One step of the running-best scan: prefer the lower unit price when
both offers carry a unit price of the same kind, otherwise prefer the
lower absolute price; on ties the incumbent (first seen) survives. -/
def updateBest (best offer : Offer) : Offer :=
  match offer.unitPrice, best.unitPrice with
  | some ou, some bu =>
      if offer.unitKind = best.unitKind then
        (if ou < bu then offer else best)
      else (if offer.price < best.price then offer else best)
  | _, _ => if offer.price < best.price then offer else best

/-- Model of `bestComparableOffer` (KrogerController.js 238-303): a
linear scan with running-best semantics over the product list. -/
def bestComparableOffer (products : List BProduct) : Option Offer :=
  products.foldl (fun best p =>
    match best with
    | none => some (mkOffer p)
    | some b => some (updateBest b (mkOffer p))) none

/-- The retailer chosen for an ingredient. -/
inductive Winner
  | kroger | walmart | wnone
deriving DecidableEq, Repr

/-- The reason strings of `chooseWinnerForIngredient`; `reason_none`
models the string `"none"`. -/
inductive WinReason
  | only_kroger | only_walmart | reason_none | unit_price | price_fallback
deriving DecidableEq, Repr

/-- The record returned by `chooseWinnerForIngredient`. -/
structure WinnerDecision where
  winner : Winner
  krogerBest : Option Offer
  walmartBest : Option Offer
  reason : WinReason
deriving DecidableEq

/-- The absolute-price fallback branch of `chooseWinnerForIngredient`. -/
def priceFallbackDecision (kb wb : Offer) : WinnerDecision :=
  if kb.price ≤ wb.price then ⟨.kroger, some kb, some wb, .price_fallback⟩
  else ⟨.walmart, some kb, some wb, .price_fallback⟩

/-- The winner decision on the two per-retailer best offers, following
the branch order of the source (KrogerController.js 305-334). -/
def chooseWinnerCore : Option Offer → Option Offer → WinnerDecision
  | some kb, none => ⟨.kroger, some kb, none, .only_kroger⟩
  | none, some wb => ⟨.walmart, none, some wb, .only_walmart⟩
  | none, none => ⟨.wnone, none, none, .reason_none⟩
  | some kb, some wb =>
      match kb.unitPrice, wb.unitPrice with
      | some ku, some wu =>
          if kb.unitKind = wb.unitKind then
            if ku ≤ wu then ⟨.kroger, some kb, some wb, .unit_price⟩
            else ⟨.walmart, some kb, some wb, .unit_price⟩
          else priceFallbackDecision kb wb
      | _, _ => priceFallbackDecision kb wb

/-- Model of `chooseWinnerForIngredient`: compute each retailer's best
comparable offer, then decide. -/
def chooseWinnerForIngredient (kArr wArr : List BProduct) : WinnerDecision :=
  chooseWinnerCore (bestComparableOffer kArr) (bestComparableOffer wArr)

/-- Modelled from the claim text of C2, independently of the source: the
four-branch winner order — only one retailer present, neither present,
both with same-kind unit prices (lower unit price wins, tie to the first
retailer checked), otherwise lower absolute price (tie to the first
retailer checked). -/
def winnerSpecC2 : Option Offer → Option Offer → Winner × WinReason
  | some _, none => (.kroger, .only_kroger)
  | none, some _ => (.walmart, .only_walmart)
  | none, none => (.wnone, .reason_none)
  | some k, some w =>
      match k.unitPrice, w.unitPrice with
      | some ku, some wu =>
          if k.unitKind = w.unitKind then
            (if ku ≤ wu then Winner.kroger else Winner.walmart, WinReason.unit_price)
          else
            (if k.price ≤ w.price then Winner.kroger else Winner.walmart,
              WinReason.price_fallback)
      | _, _ =>
          (if k.price ≤ w.price then Winner.kroger else Winner.walmart,
            WinReason.price_fallback)

/-! ## Cart synchronization engine: addKrogerItemsToCart

Embedding of KrogerController.js lines 1281-1416. The remote cart API
and the token helpers are modelled by an explicit environment: the token
available before the loop, the token a mid-loop `getValidUserToken`
re-check yields, and the HTTP status of each add attempt.
-/

/-- A raw entry of `itemsToAdd`; `upc` is the result of
`String(x?.upc || "")` (absent field gives the empty string) and
`quantity` is the raw numeric field, absent = `none`. -/
structure RawCartItem where
  upc : String
  quantity : Option ℚ
deriving DecidableEq

/-- A sanitized cart item. -/
structure CartItem where
  upc : String
  quantity : ℚ
deriving DecidableEq

/-- Remove leading and trailing whitespace, JS `String.prototype.trim`. -/
def jsTrim (s : String) : String :=
  String.mk (((s.data.dropWhile Char.isWhitespace).reverse.dropWhile
    Char.isWhitespace).reverse)

/-- The coercion `Number(x?.quantity || 1) || 1`: an absent quantity and
a zero quantity both become 1. -/
def sanitizeQuantity : Option ℚ → ℚ
  | none => 1
  | some q => if q = 0 then 1 else q

/-- The sanitation prefix of the engine: trim each UPC, default each
quantity, and drop items whose UPC is empty. -/
def sanitizeItems (xs : List RawCartItem) : List CartItem :=
  (xs.map (fun x => ⟨jsTrim x.upc, sanitizeQuantity x.quantity⟩)).filter
    (fun x => x.upc ≠ "")

/-- First-occurrence deduplication by UPC (the `seen` set loop of the
source). -/
def dedupeByUpc : List CartItem → List CartItem :=
  dedupFirstBy (fun it => it.upc)

/-- The external world of one cart run: `initialToken` is what
`getValidUserToken` yields before the loop (`none` = needs auth),
`refreshAt i` is what the mid-loop `getValidUserToken` re-check yields
while processing item `i`, and `status i a` is the HTTP status of the
add call for item `i` on attempt `a` (0 = first try, 1 = retry). -/
structure CartEnv where
  initialToken : Option Nat
  refreshAt : Nat → Option Nat
  status : Nat → Nat → Nat

/-- The trace of the remote calls made for one item. -/
structure ItemAttempt where
  index : Nat
  upc : String
  statuses : List Nat
  ok : Bool
deriving DecidableEq

/-- The mutable state of the item loop. -/
structure LoopState where
  token : Nat
  addedCount : Nat
  addedItems : List CartItem
  snapshot : List (String × ℚ)
  attempts : List ItemAttempt
deriving DecidableEq

/-- The remote calls made for one item given the current token: the
first attempt's status; on a 401/403 the token is re-checked and, only
if a different token came back, the item is retried exactly once.
Returns the token to carry forward, the final status, and the list of
statuses observed. -/
def itemCallPlan (env : CartEnv) (i : Nat) (token : Nat) :
    Nat × Nat × List Nat :=
  let s1 := env.status i 0
  if s1 = 401 ∨ s1 = 403 then
    match env.refreshAt i with
    | some t2 =>
        if t2 ≠ token then (t2, env.status i 1, [s1, env.status i 1])
        else (token, s1, [s1])
    | none => (token, s1, [s1])
  else (token, s1, [s1])

/-- One iteration of the item loop: attempt the add (with the bounded
401/403 retry of `itemCallPlan`); a 2xx final status counts the item as
added and writes its quantity into the snapshot, any other status leaves
the item un-added. -/
def stepItem (env : CartEnv) (i : Nat) (it : CartItem) (st : LoopState) :
    LoopState :=
  let plan := itemCallPlan env i st.token
  if 200 ≤ plan.2.1 ∧ plan.2.1 < 300 then
    { token := plan.1
      addedCount := st.addedCount + 1
      addedItems := st.addedItems ++ [it]
      snapshot := jsMapSet st.snapshot it.upc it.quantity
      attempts := st.attempts ++ [⟨i, it.upc, plan.2.2, true⟩] }
  else
    { st with token := plan.1
              attempts := st.attempts ++ [⟨i, it.upc, plan.2.2, false⟩] }

/-- The sequential item loop; every remaining item is processed no
matter how earlier items fared. -/
def runItems (env : CartEnv) : Nat → List CartItem → LoopState → LoopState
  | _, [], st => st
  | i, it :: rest, st => runItems env (i + 1) rest (stepItem env i it st)

/-- The result of one engine run. -/
structure CartOutcome where
  ok : Bool
  needKrogerAuth : Bool
  addedCount : Nat
  skippedCount : Nat
  addedItems : List CartItem
  attempts : List ItemAttempt
  snapshot : List (String × ℚ)
deriving DecidableEq

/-- Model of `addKrogerItemsToCart` (KrogerController.js 1292-1416):
sanitize and deduplicate; an empty list returns ok before any token
check; a missing token returns the needs-auth outcome; otherwise run the
item loop and report `addedCount` with `skippedCount` fixed at 0. -/
def addKrogerItemsToCart (env : CartEnv) (snapshot0 : List (String × ℚ))
    (itemsToAdd : List RawCartItem) : CartOutcome :=
  let uniq := dedupeByUpc (sanitizeItems itemsToAdd)
  if uniq.isEmpty then
    { ok := true, needKrogerAuth := false, addedCount := 0, skippedCount := 0,
      addedItems := [], attempts := [], snapshot := snapshot0 }
  else
    match env.initialToken with
    | none =>
        { ok := false, needKrogerAuth := true, addedCount := 0,
          skippedCount := 0, addedItems := [], attempts := [],
          snapshot := snapshot0 }
    | some t0 =>
        let final := runItems env 0 uniq ⟨t0, 0, [], snapshot0, []⟩
        { ok := true, needKrogerAuth := false,
          addedCount := final.addedCount, skippedCount := 0,
          addedItems := final.addedItems, attempts := final.attempts,
          snapshot := final.snapshot }

/-- Model of `clearCartSnapshotForUser`: the user's snapshot is replaced
wholesale by a fresh empty map. -/
def clearCartSnapshotForUser (_snapshot : List (String × ℚ)) :
    List (String × ℚ) := []

/-- The auto-add flow of `krogerSearch`/`krogerSearchStream` restricted
to snapshot handling: clear the user's snapshot, then run the engine on
the planned items. -/
def autoAddRun (env : CartEnv) (snapshot0 : List (String × ℚ))
    (itemsToAdd : List RawCartItem) : CartOutcome :=
  addKrogerItemsToCart env (clearCartSnapshotForUser snapshot0) itemsToAdd

/-! ## Kroger search pipeline

Embedding of `runKrogerSearchPipeline` (KrogerController.js 496-884) and
of the index-mapping stage of the part_000 variant of the controller
(part_000 lines 420-475). The classification oracle and the catalogs are
explicit parameters: `oracleResp` is the parsed LLM1 `result` array
(`none` = unparsable response), `picks` is the parsed LLM2 `final_picks`
list, and `search` is the catalog client (`Except.error` = a thrown
search). The Redis caches short-circuit repeated runs and are not
modelled; a run below is a cache-miss run. -/

/-- A warning as accumulated by the pipeline: either a bare code string
(the early-return `"no_ingredients"` / `"no_candidates"` entries) or an
object with `ingredient` and `error` fields; the optional `title` models
the extra field of `title_not_in_pool` entries. The `payload` field of
`product_search_failed` objects is not modelled. -/
inductive Warning
  | plain (code : String)
  | ing (ingredient : String) (error : String) (title : Option String)
deriving DecidableEq

/-- The fields of a raw Kroger catalog record that the pipeline reads;
`promo`/`regular` are `items[0].price.promo` / `.regular`, and
`size`/`soldBy` are `items[0].size` / `items[0].soldBy`. -/
structure KProduct where
  productId : String
  description : String
  brand : String
  upc : String
  promo : Option ℚ
  regular : Option ℚ
  size : String
  soldBy : String
deriving DecidableEq

/-- A normalized product (`normalizeKroger`); `pid` models `_id` and the
image selection is not modelled (no claim reads it). -/
structure NormProduct where
  pid : String
  title : String
  price : ℚ
  description : String
  upc : String
  locationId : Option String
  retailer : String
  size : String
deriving DecidableEq

/-- Model of `normalizeKroger` (KrogerController.js 133-151): price is
`promo ?? regular ?? 0` and size is `items[0].size || items[0].soldBy || ""`. -/
def normalizeKroger (p : KProduct) (locationId : Option String) : NormProduct :=
  { pid := p.productId
    title := p.description
    price := (p.promo.orElse (fun _ => p.regular)).getD 0
    description := p.brand
    upc := p.upc
    locationId := locationId
    retailer := "kroger"
    size := if p.size ≠ "" then p.size else p.soldBy }

/-- Lowercase a whole string (ASCII model of `toLowerCase()`). -/
def asciiLowerStr (s : String) : String := String.mk (s.data.map asciiToLower)

/-- Model of `normTitle` (KrogerController.js 887-895 and part_000
59-67): lowercase, NFKD-normalize (the identity on the ASCII inputs
modelled here), strip `®`/`™`, collapse whitespace, strip every
remaining character that is neither a word character nor whitespace,
then trim. -/
def normTitle (s : String) : String :=
  String.mk (trimSpaces ((squashSpaces
    (((s.data.map asciiToLower).filter (fun c => c ≠ '®' ∧ c ≠ '™')).map
      (fun c => if c.isWhitespace then ' ' else c))).filter
    (fun c => isWordChar c ∨ c = ' ')))

/-- The LLM1 interpretation (KrogerController.js 602-606): more than one
element means a detected dish whose first element is the dish name and
whose tail is the ingredient list; otherwise there is no dish name and
the whole array is the ingredient list; an unparsable response behaves
as the empty array. -/
def interpretOracle : Option (List String) → Option String × List String
  | none => (none, [])
  | some arr => if arr.length > 1 then (arr.head?, arr.tail) else (none, arr)

/-- Lookup of `m[k]` with a default, for JS objects represented as
association lists built in insertion order (the pipeline only writes
each key with one value, so first-match lookup is adequate). -/
def lookupD {β : Type} (m : List (String × β)) (k : String) (d : β) : β :=
  ((m.find? (fun e => e.1 = k)).map (fun e => e.2)).getD d

/-- The effect of `(obj[k] ||= []).push(v)` on an object represented as
an insertion-ordered association list. -/
def jsObjPush {β : Type} (m : List (String × List β)) (k : String) (v : β) :
    List (String × List β) :=
  if m.any (fun e => e.1 = k) then
    m.map (fun e => if e.1 = k then (e.1, e.2 ++ [v]) else e)
  else m ++ [(k, [v])]

/-- The effect of `obj[k] = v` on an object represented as an
insertion-ordered association list. -/
def jsObjSet {β : Type} (m : List (String × β)) (k : String) (v : β) :
    List (String × β) :=
  if m.any (fun e => e.1 = k) then
    m.map (fun e => if e.1 = k then (e.1, v) else e)
  else m ++ [(k, v)]

/-- The effect of `set.add(x)` on a JS `Set` represented as an
insertion-ordered list. -/
def jsSetAdd (xs : List String) (x : String) : List String :=
  if x ∈ xs then xs else xs ++ [x]

/-- The result of the per-ingredient candidate fetch loop. -/
structure FetchResult where
  pools : List (String × List KProduct)
  titles : List (String × List String)
  warnings : List Warning
deriving DecidableEq

/-- The candidate fetch loop (KrogerController.js 664-692): one search
per ingredient in order; a thrown search warns `product_search_failed`
and stores empty pools, an empty result warns `no_candidates`; titles
are the first `passCount` descriptions. -/
def fetchCandidates (search : String → Except Unit (List KProduct))
    (passCount : Nat) : List String → FetchResult
  | [] => ⟨[], [], []⟩
  | ing :: rest =>
      let tailRes := fetchCandidates search passCount rest
      match search ing with
      | .ok list =>
          let titles := (list.map (fun p => p.description)).take passCount
          { pools := (ing, list) :: tailRes.pools
            titles := (ing, titles) :: tailRes.titles
            warnings :=
              (if titles.isEmpty then [Warning.ing ing "no_candidates" none] else [])
                ++ tailRes.warnings }
      | .error _ =>
          { pools := (ing, []) :: tailRes.pools
            titles := (ing, []) :: tailRes.titles
            warnings := Warning.ing ing "product_search_failed" none :: tailRes.warnings }

/-- Accumulator of an index-mapping stage. -/
structure MatchAcc (π : Type) where
  products : List π
  matched : List String
  byIng : List (String × List π)
deriving DecidableEq

/-- Resolution of one surviving index in the main controller's mapping
stage (lines 836-840): indices outside `[0, titles.length)` resolve to
nothing; otherwise the index's title is looked up in the pool by exact
description match with `pool[i]` as positional fallback
(`pool.find((p) => p.description === title) || pool[i]`). -/
def resolveMainHit (pool : List KProduct) (titles : List String) (i : Int) :
    Option KProduct :=
  if i < 0 ∨ (titles.length : Int) ≤ i then none
  else
    let title := titles.getD i.toNat ""
    (pool.find? (fun p => p.description = title)).orElse
      (fun _ => pool.get? i.toNat)

/-- The index-mapping stage of the main controller (lines 822-849):
deduplicate the integer indices per entry, resolve each with
`resolveMainHit`, normalize the hits; an ingredient with at least one
hit is marked matched. No warning is pushed anywhere in this stage. -/
def mapStageMain (loc : Option String) (pools : List (String × List KProduct))
    (titlesBy : List (String × List String))
    (entries : List (String × List Int)) : MatchAcc NormProduct :=
  entries.foldl (fun acc e =>
    let pool := lookupD pools e.1 []
    let titles := lookupD titlesBy e.1 []
    let idx := dedupFirst e.2
    let norms := (idx.filterMap (resolveMainHit pool titles)).map
      (fun h => normalizeKroger h loc)
    { products := acc.products ++ norms
      matched := if norms.isEmpty then acc.matched else jsSetAdd acc.matched e.1
      byIng := norms.foldl (fun m n => jsObjPush m e.1 n) acc.byIng })
    ⟨[], [], []⟩

/-- Resolution of one chosen title in the part_000 variant (part_000
450-456): the normalized-title `Map` built over the pool (later entries
overwrite earlier ones) is consulted first, and only if it has no
binding is the pool searched for an exact description match. -/
def resolveTitleP0 (pool : List KProduct) (t : String) : Option KProduct :=
  (jsMapGet (pool.map (fun p => (normTitle p.description, p))) (normTitle t)).orElse
    (fun _ => pool.find? (fun p => p.description = t))

/-- Accumulator of the part_000 mapping stage, which also appends
warnings. -/
structure MatchAccP0 where
  products : List NormProduct
  matched : List String
  byIng : List (String × List NormProduct)
  warnings : List Warning
deriving DecidableEq

/-- The index-mapping stage of the part_000 variant (part_000 420-475):
entries with no integer index warn `no_confident_title`; entries whose
indices are all out of bounds warn `no_valid_indices`; each surviving
title resolves via `resolveTitleP0`, unresolved titles warn
`title_not_in_pool`, and an entry with no resolved product warns
`no_confident_match`; otherwise the normalized hits are appended and the
ingredient's entry in the by-ingredient object is assigned. -/
def mapStageP0 (loc : Option String) (pools : List (String × List KProduct))
    (titlesBy : List (String × List String))
    (entries : List (String × List Int)) (warnings0 : List Warning) :
    MatchAccP0 :=
  entries.foldl (fun acc e =>
    let pool := lookupD pools e.1 []
    let titles := lookupD titlesBy e.1 []
    let idx := dedupFirst e.2
    if idx.isEmpty then
      { acc with warnings := acc.warnings ++ [.ing e.1 "no_confident_title" none] }
    else
      let chosenTitles := idx.filterMap (fun i =>
        if 0 ≤ i ∧ i < (titles.length : Int) then titles.get? i.toNat else none)
      if chosenTitles.isEmpty then
        { acc with warnings := acc.warnings ++ [.ing e.1 "no_valid_indices" none] }
      else
        let resolved := chosenTitles.map (fun t => (t, resolveTitleP0 pool t))
        let matchedRecs := resolved.filterMap (fun r => r.2)
        let missWarnings := resolved.filterMap (fun r =>
          match r.2 with
          | some _ => none
          | none => some (Warning.ing e.1 "title_not_in_pool" (some r.1)))
        if matchedRecs.isEmpty then
          { acc with warnings :=
              acc.warnings ++ missWarnings ++ [.ing e.1 "no_confident_match" none] }
        else
          { products := acc.products ++ matchedRecs.map (fun h => normalizeKroger h loc)
            matched := jsSetAdd acc.matched e.1
            byIng := jsObjSet acc.byIng e.1 (matchedRecs.map (fun h => normalizeKroger h loc))
            warnings := acc.warnings ++ missWarnings })
    ⟨[], [], [], warnings0⟩

/-- The `dishName || null` coercion applied when assembling payloads: an
empty string becomes `null`. -/
def dishNameOrNull : Option String → Option String
  | some s => if s = "" then none else some s
  | none => none

/-- The trace of one Kroger pipeline run: the result payload fields plus
the list of catalog search calls made. -/
structure KrogerPipelineResult where
  products : List NormProduct
  warnings : List Warning
  dishName : Option String
  ingredients : List String
  matchedInKroger : List String
  krogerMatchedByIngredient : List (String × List NormProduct)
  catalogCalls : List String
deriving DecidableEq

/-- Model of a cache-miss run of `runKrogerSearchPipeline`: interpret
the oracle array; an empty ingredient list returns the documented early
shape with warning `no_ingredients` before any catalog call; otherwise
fetch candidates for every ingredient, drop ingredients with no
candidates, and if none survive return the early `no_candidates` shape;
otherwise run the main controller's mapping stage over the LLM2 picks. -/
def runKrogerSearchPipeline (oracleResp : Option (List String))
    (search : String → Except Unit (List KProduct))
    (picks : List (String × List Int)) (locationId : Option String)
    (passCount : Nat) : KrogerPipelineResult :=
  let ext := interpretOracle oracleResp
  let dishName := ext.1
  let ingredients := ext.2
  if ingredients.isEmpty then
    { products := [], warnings := [.plain "no_ingredients"], dishName := dishName,
      ingredients := [], matchedInKroger := [], krogerMatchedByIngredient := [],
      catalogCalls := [] }
  else
    let fetched := fetchCandidates search passCount ingredients
    let ingList := ingredients.filter
      (fun i => ¬ (lookupD fetched.titles i []).isEmpty)
    if ingList.isEmpty then
      { products := []
        warnings := if fetched.warnings.isEmpty then [.plain "no_candidates"]
          else fetched.warnings
        dishName := dishName
        ingredients := ingredients
        matchedInKroger := []
        krogerMatchedByIngredient := []
        catalogCalls := ingredients }
    else
      let acc := mapStageMain locationId fetched.pools fetched.titles picks
      { products := acc.products
        warnings := fetched.warnings
        dishName := dishNameOrNull dishName
        ingredients := ingredients
        matchedInKroger := acc.matched
        krogerMatchedByIngredient := acc.byIng
        catalogCalls := ingredients }

/-! ## Walmart matching stage and term forwarding -/

/-- The fields of a raw Walmart catalog item read by the matching stage
and by `normalize` of the affiliate client. -/
structure WProduct where
  name : String
  upc : String
  salePrice : Option ℚ
  msrp : Option ℚ
  size : String
deriving DecidableEq

/-- A normalized Walmart product; `raw` retains the raw item as the
source does. -/
structure WNorm where
  title : String
  price : ℚ
  upc : String
  raw : WProduct
deriving DecidableEq

/-- Model of `normalize` of config/walmartAffiliate.js: title falls back
to `"Product"`, price is `salePrice` if numeric else `msrp` if numeric
else 0. -/
def normalizeWalmart (item : WProduct) : WNorm :=
  { title := if item.name ≠ "" then item.name else "Product"
    price := item.salePrice.getD (item.msrp.getD 0)
    upc := item.upc
    raw := item }

/-- Resolution of one chosen title in the Walmart stage
(KrogerController.js 1031-1036): exact name match first, then the
normalized-title `Map` (later entries overwrite earlier ones). -/
def resolveTitleW (pool : List WProduct) (t : String) : Option WProduct :=
  (pool.find? (fun it => it.name = t)).orElse
    (fun _ => jsMapGet (pool.map (fun it => (normTitle it.name, it))) (normTitle t))

/-- The result of `runWalmartMatchByIndexDetailed`, plus the list of
Walmart search calls made. -/
structure WalmartResult where
  products : List WNorm
  matchedInWalmart : List String
  byIngredient : List (String × List WNorm)
  calls : List String
deriving DecidableEq

/-- Model of `runWalmartMatchByIndexDetailed` (KrogerController.js
915-1069): deduplicate the truthy terms; an empty list returns
immediately without any search; otherwise search each term (a thrown
search stores empty pools), enumerate the first `passCount` non-empty
names, keep only picks whose ingredient is in the term list, and map
each entry's deduplicated in-bounds indices to titles resolved by
`resolveTitleW`; no warning is emitted anywhere. -/
def runWalmartMatchByIndexDetailed (terms : List String)
    (wsearch : String → Except Unit (List WProduct)) (passCount : Nat)
    (wpicks : List (String × List Int)) : WalmartResult :=
  let ingList := dedupFirst (terms.filter (fun t => t ≠ ""))
  if ingList.isEmpty then ⟨[], [], [], []⟩
  else
    let pools := ingList.map (fun ing =>
      match wsearch ing with
      | .ok items => (ing, items)
      | .error _ => (ing, ([] : List WProduct)))
    let titlesBy := pools.map (fun f =>
      (f.1, ((f.2.map (fun it => it.name)).filter (fun n => n ≠ "")).take passCount))
    let entries := wpicks.filter (fun e => e.1 ∈ ingList)
    let acc := entries.foldl (fun acc e =>
      let pool := lookupD pools e.1 []
      let titles := lookupD titlesBy e.1 []
      let idx := dedupFirst e.2
      if idx.isEmpty then acc
      else
        let chosen := idx.filterMap (fun i =>
          if 0 ≤ i ∧ i < (titles.length : Int) then titles.get? i.toNat else none)
        if chosen.isEmpty then acc
        else
          let norms := (chosen.filterMap (resolveTitleW pool)).map normalizeWalmart
          { products := acc.products ++ norms
            matched := if norms.isEmpty then acc.matched else jsSetAdd acc.matched e.1
            byIng := norms.foldl (fun m n => jsObjPush m e.1 n) acc.byIng })
      (⟨[], [], []⟩ : MatchAcc WNorm)
    ⟨acc.products, acc.matched, acc.byIng, ingList⟩

/-- The closed set of warning codes that `extractUnmatchedTerms`
accepts. -/
def unmatchCodes : List String :=
  ["no_candidates", "product_search_failed", "no_confident_title",
    "no_valid_indices", "no_confident_match", "title_not_in_pool"]

/-- Model of `extractUnmatchedTerms` (KrogerController.js 897-913):
collect the trimmed ingredient of each object warning whose code is in
the closed set, lowercase them, deduplicate keeping first occurrences,
and cap at 6. -/
def extractUnmatchedTerms (warnings : List Warning) : List String :=
  let terms := warnings.filterMap (fun w =>
    match w with
    | .plain _ => none
    | .ing ingredient error _ =>
        if jsTrim ingredient ≠ "" ∧ error ∈ unmatchCodes then
          some (jsTrim ingredient)
        else none)
  (dedupFirst (terms.map asciiLowerStr)).take 6

/-- The Walmart term decision of the routes (KrogerController.js
1514-1520, 1588-1592, 1668-1674): budget mode forwards the full
ingredient list; otherwise the warning-derived terms when non-empty,
else the unmatched ingredients capped at 6. -/
def walmartTermsFor (budget : Bool) (k : KrogerPipelineResult) : List String :=
  let fromWarnings := extractUnmatchedTerms k.warnings
  let unmatchedIngredients := k.ingredients.filter
    (fun ing => ing ∉ k.matchedInKroger)
  if budget then k.ingredients
  else if ¬ fromWarnings.isEmpty then fromWarnings
  else unmatchedIngredients.take 6

/-! ## Final payload and the auto-add route -/

/-- View of a normalized Kroger product as the duck-typed record
`bestComparableOffer` reads: its price is a plain number and the raw
Kroger API record carries none of the string size fields the offer
builder probes (`size`, `sizeString`, `packageSize`, `packSize`,
`name`). -/
def kToB (p : NormProduct) : BProduct :=
  ⟨.num p.price, p.title, p.size, []⟩

/-- View of a normalized Walmart product as the record
`bestComparableOffer` reads: it has no `size` field and its raw item
contributes `raw.size` and `raw.name` as probe candidates. -/
def wToB (p : WNorm) : BProduct :=
  ⟨.num p.price, p.title, "", [p.raw.size, p.raw.name]⟩

/-- The response payload assembled by `buildFinalPayload`
(KrogerController.js 1072-1203); `budgetDecisions` is debug output and
not modelled, and `unmatchedIngredients` exists only in the non-budget
shape (empty otherwise). -/
structure FinalPayload where
  budgetSearch : Bool
  dishName : Option String
  ingredients : List String
  krogerProducts : List NormProduct
  walmartProducts : List WNorm
  matchedInKroger : List String
  matchedInWalmart : List String
  krogerByIngredient : List (String × List NormProduct)
  walmartByIngredient : List (String × List WNorm)
  unmatchedIngredients : List String
  unmatchedTerms : List String
  warnings : List Warning
deriving DecidableEq

/-- Model of `buildFinalPayload`: the non-budget branch merges the two
results verbatim; the budget branch keeps, per ingredient, only the
winning retailer's non-empty product list (winners computed by
`chooseWinnerForIngredient` on the per-ingredient lists). -/
def buildFinalPayload (k : KrogerPipelineResult) (w : WalmartResult)
    (budgetSearch : Bool) : FinalPayload :=
  if budgetSearch then
    let perIng := k.ingredients.foldl (fun acc ing =>
      let kArr := lookupD k.krogerMatchedByIngredient ing []
      let wArr := lookupD w.byIngredient ing []
      let decision := chooseWinnerForIngredient (kArr.map kToB) (wArr.map wToB)
      match decision.winner with
      | .kroger => if ¬ kArr.isEmpty then (jsObjSet acc.1 ing kArr, acc.2) else acc
      | .walmart => if ¬ wArr.isEmpty then (acc.1, jsObjSet acc.2 ing wArr) else acc
      | .wnone => acc)
      (([], []) : List (String × List NormProduct) × List (String × List WNorm))
    { budgetSearch := true
      dishName := dishNameOrNull k.dishName
      ingredients := k.ingredients
      krogerProducts := perIng.1.foldl (fun ps e => ps ++ e.2) []
      walmartProducts := perIng.2.foldl (fun ps e => ps ++ e.2) []
      matchedInKroger := perIng.1.map (fun e => e.1)
      matchedInWalmart := perIng.2.map (fun e => e.1)
      krogerByIngredient := perIng.1
      walmartByIngredient := perIng.2
      unmatchedIngredients := []
      unmatchedTerms := extractUnmatchedTerms k.warnings
      warnings := k.warnings }
  else
    { budgetSearch := false
      dishName := dishNameOrNull k.dishName
      ingredients := k.ingredients
      krogerProducts := k.products
      walmartProducts := w.products
      matchedInKroger := k.matchedInKroger
      matchedInWalmart := w.matchedInWalmart
      krogerByIngredient := k.krogerMatchedByIngredient
      walmartByIngredient := w.byIngredient
      unmatchedIngredients := k.ingredients.filter
        (fun ing => ing ∉ k.matchedInKroger)
      unmatchedTerms := extractUnmatchedTerms k.warnings
      warnings := k.warnings }

/-- The trace of one auto-add JSON route request. -/
structure RouteTrace where
  payload : FinalPayload
  cartAdd : CartOutcome
  krogerCatalogCalls : List String
  walmartCalls : List String

/-- Model of the auto-add path of `krogerSearch` (KrogerController.js
1499-1552): clear the snapshot, run the Kroger pipeline, decide the
Walmart terms, run the Walmart stage, assemble the payload, build the
cart plan from the payload's Kroger products (quantity 1, truthy UPCs
only), and run the cart engine. -/
def krogerSearchAutoAdd (budget : Bool) (oracleResp : Option (List String))
    (search : String → Except Unit (List KProduct))
    (picks : List (String × List Int))
    (wsearch : String → Except Unit (List WProduct))
    (wpicks : List (String × List Int)) (locationId : Option String)
    (passCount : Nat) (env : CartEnv) (snapshot0 : List (String × ℚ)) :
    RouteTrace :=
  let snap1 := clearCartSnapshotForUser snapshot0
  let k := runKrogerSearchPipeline oracleResp search picks locationId passCount
  let terms := walmartTermsFor budget k
  let w := runWalmartMatchByIndexDetailed terms wsearch passCount wpicks
  let payload := buildFinalPayload k w budget
  let plan : List RawCartItem :=
    (payload.krogerProducts.map (fun p => RawCartItem.mk p.upc (some 1))).filter
      (fun x => x.upc ≠ "")
  let cart := addKrogerItemsToCart env snap1 plan
  ⟨payload, cart, k.catalogCalls, w.calls⟩

/-- An offer with a count unit price, used to witness the theorems on
winner selection. -/
def witOfferCount : Offer :=
  ⟨⟨.num 1, "a", "", []⟩, 1, some .count, some ⟨1, 0⟩, some 1, "unit"⟩

/-- An offer with a weight unit price, used to witness the theorems on
winner selection. -/
def witOfferWeight : Offer :=
  ⟨⟨.num 1, "b", "", []⟩, 1, some .weight_oz, some ⟨1, 0⟩, some 1, "unit"⟩

/-- A product whose price field is absent and whose texts parse to no
unit quantity. -/
def c8unpriced : BProduct := ⟨.missing, "Mystery Cheese", "", []⟩

/-- A positively priced product whose texts parse to no unit quantity. -/
def c8cheap : BProduct := ⟨.num 2, "Cheap Cheese", "", []⟩

/-- The five-item plan of the partial-failure scenario. -/
def c3items : List RawCartItem :=
  [⟨"u1", some 1⟩, ⟨"u2", some 1⟩, ⟨"u3", some 1⟩, ⟨"u4", some 1⟩,
    ⟨"u5", some 1⟩]

/-- The scenario environment: a valid token, no refresh available, and
the third item (index 2) failing with a 500 while all others return 200. -/
def c3env : CartEnv :=
  ⟨some 7, fun _ => none, fun i _ => if i = 2 then 500 else 200⟩

/-- An environment with no token available at all. -/
def envNoToken : CartEnv := ⟨none, fun _ => none, fun _ _ => 200⟩

/-- A one-product candidate pool for the index-bounds scenarios. -/
def c4prod : KProduct :=
  ⟨"p1", "Roma Tomato", "BrandX", "0001", some 2, some 3, "1 lb", ""⟩

/-- A record whose description carries punctuation, for the
title-resolution scenarios. -/
def c5A : KProduct := ⟨"a", "Milk!", "", "", none, none, "", ""⟩

/-- A record whose description is the punctuation-stripped form of
`c5A`'s. -/
def c5B : KProduct := ⟨"b", "Milk", "", "", none, none, "", ""⟩

/-- A one-product candidate pool for the term-forwarding scenario. -/
def c10prod : KProduct := ⟨"s1", "Sea Salt", "", "0002", some 1, none, "", ""⟩

/-- A pipeline result carrying one unmatched-code warning, for the
term-forwarding witnesses. -/
def c10kres : KrogerPipelineResult :=
  ⟨[], [.ing "salt" "no_candidates" none], none, ["salt"], [], [], []⟩

/-! ## Theorems for the checked claims -/

/-- C6: the unit-quantity parser sends "2 L" and "2000 ml" to the same
unit kind (volume in fluid ounces): the liter branch yields
2 * 33.8140227 fl oz and the ml branch yields 2000 * 0.0338140227 fl oz,
and the two quantities are exactly equal in the rational model. -/
theorem C6_unit_conversion_roundtrip :
    parseUnitQuantityFromText "2 L"
        = some ⟨.volume_floz, (Dec.mk 2 0).mul literToFlOz⟩
    ∧ parseUnitQuantityFromText "2000 ml"
        = some ⟨.volume_floz, (Dec.mk 2000 0).mul mlToFlOz⟩
    ∧ ((Dec.mk 2 0).mul literToFlOz).toRat
        = ((Dec.mk 2000 0).mul mlToFlOz).toRat := by
  refine ⟨by decide, by decide, ?_⟩
  norm_num [Dec.toRat, Dec.mul, literToFlOz, mlToFlOz]

/-- C2: the cross-retailer winner decision agrees, on the two
per-retailer best offers, with the four-branch order stated by the spec
(only-one-present wins, neither gives none, same-kind unit prices
compare by unit price with ties to Kroger, everything else compares by
absolute price with ties to Kroger); it is a function of the two best
offers (which it returns unchanged), and mismatched unit kinds always
fall through to the absolute-price comparison. -/
theorem C2_winner_selection_order :
    (∀ kArr wArr : List BProduct,
        ((chooseWinnerForIngredient kArr wArr).winner,
          (chooseWinnerForIngredient kArr wArr).reason)
          = winnerSpecC2 (bestComparableOffer kArr) (bestComparableOffer wArr)
        ∧ (chooseWinnerForIngredient kArr wArr).krogerBest = bestComparableOffer kArr
        ∧ (chooseWinnerForIngredient kArr wArr).walmartBest = bestComparableOffer wArr)
    ∧ (∀ k w : Offer, k.unitKind ≠ w.unitKind →
        (chooseWinnerCore (some k) (some w)).reason = .price_fallback) := by
  constructor
  · intro kArr wArr
    unfold chooseWinnerForIngredient
    cases bestComparableOffer kArr with
    | none =>
        cases bestComparableOffer wArr with
        | none => simp [chooseWinnerCore, winnerSpecC2]
        | some wb => simp [chooseWinnerCore, winnerSpecC2]
    | some kb =>
        cases bestComparableOffer wArr with
        | none => simp [chooseWinnerCore, winnerSpecC2]
        | some wb =>
            cases hku : kb.unitPrice with
            | none =>
                cases hwu : wb.unitPrice with
                | none =>
                    simp [chooseWinnerCore, winnerSpecC2, hku, hwu,
                      priceFallbackDecision]
                    split <;> simp
                | some wu =>
                    simp [chooseWinnerCore, winnerSpecC2, hku, hwu,
                      priceFallbackDecision]
                    split <;> simp
            | some ku =>
                cases hwu : wb.unitPrice with
                | none =>
                    simp [chooseWinnerCore, winnerSpecC2, hku, hwu,
                      priceFallbackDecision]
                    split <;> simp
                | some wu =>
                    simp [chooseWinnerCore, winnerSpecC2, hku, hwu,
                      priceFallbackDecision]
                    split
                    · split <;> simp
                    · split <;> simp
  · intro k w h
    cases hku : k.unitPrice with
    | none =>
        cases hwu : w.unitPrice with
        | none =>
            simp [chooseWinnerCore, hku, hwu, priceFallbackDecision]
            split <;> simp
        | some wu =>
            simp [chooseWinnerCore, hku, hwu, priceFallbackDecision]
            split <;> simp
    | some ku =>
        cases hwu : w.unitPrice with
        | none =>
            simp [chooseWinnerCore, hku, hwu, priceFallbackDecision]
            split <;> simp
        | some wu =>
            simp [chooseWinnerCore, hku, hwu, h, priceFallbackDecision]
            split <;> simp

/-- Witness for C2: at two concrete offers of mismatched unit kinds the
decision falls through to the absolute-price comparison. -/
theorem C2_winner_selection_order_witness :
    (chooseWinnerCore (some witOfferCount) (some witOfferWeight)).reason
      = .price_fallback :=
  C2_winner_selection_order.2 witOfferCount witOfferWeight (by decide)

/-- C8: a product whose price field is missing or not finite gets
absolute price 0 in its offer; an incumbent best offer of price 0 is
never displaced by a positively priced offer when the comparison falls
back to absolute price; concretely, the unpriced product is selected as
best offer over a product genuinely priced at 2. -/
theorem C8_missing_price_as_zero :
    (∀ p : BProduct, p.price = .missing ∨ p.price = .nan → (mkOffer p).price = 0)
    ∧ (∀ best offer : Offer, best.price = 0 → 0 < offer.price →
        (offer.unitPrice = none ∨ best.unitPrice = none
          ∨ offer.unitKind ≠ best.unitKind) →
        updateBest best offer = best)
    ∧ bestComparableOffer [c8unpriced, c8cheap] = some (mkOffer c8unpriced)
    ∧ (mkOffer c8cheap).price = 2 ∧ (mkOffer c8unpriced).price = 0 := by
  refine ⟨?_, ?_, by decide, by decide, by decide⟩
  · intro p h
    rcases h with h | h <;>
      · cases hp : (offerCandidates p).findSome? parseUnitQuantityFromText with
        | none => simp [mkOffer, hp, noUnitOffer, jsPriceVar, h]
        | some u =>
            by_cases hq : 0 < u.qty.mant <;>
              simp [mkOffer, hp, noUnitOffer, jsPriceVar, h, hq]
  · intro best offer h0 hpos hcase
    have hnlt : ¬ offer.price < best.price := by
      rw [h0]; exact not_lt.mpr (le_of_lt hpos)
    cases hou : offer.unitPrice with
    | none => simp [updateBest, hou, hnlt]
    | some ou =>
        cases hbu : best.unitPrice with
        | none => simp [updateBest, hou, hbu, hnlt]
        | some bu =>
            rcases hcase with h | h | h
            · exact absurd hou (by simp [h])
            · exact absurd hbu (by simp [h])
            · simp [updateBest, hou, hbu, h, hnlt]

/-- Witness for C8: the missing-price coercion and the non-displacement
step applied at the two concrete products. -/
theorem C8_missing_price_as_zero_witness :
    (mkOffer c8unpriced).price = 0
    ∧ updateBest (mkOffer c8unpriced) (mkOffer c8cheap) = mkOffer c8unpriced :=
  ⟨C8_missing_price_as_zero.1 c8unpriced (Or.inl rfl),
    C8_missing_price_as_zero.2.1 (mkOffer c8unpriced) (mkOffer c8cheap)
      (by decide) (by decide) (by decide)⟩

/-! ### Helper lemmas on the cart engine -/

lemma itemCallPlan_statuses (env : CartEnv) (i tok : Nat) :
    (itemCallPlan env i tok).2.2 = [env.status i 0]
    ∨ ((itemCallPlan env i tok).2.2 = [env.status i 0, env.status i 1]
        ∧ (env.status i 0 = 401 ∨ env.status i 0 = 403)) := by
  unfold itemCallPlan
  by_cases h : env.status i 0 = 401 ∨ env.status i 0 = 403
  · simp only [h, if_pos]
    cases env.refreshAt i with
    | none => simp
    | some t2 =>
        by_cases ht : t2 ≠ tok
        · simp [ht, h]
        · simp [ht]
  · simp [h]

lemma stepItem_attempts (env : CartEnv) (i : Nat) (it : CartItem)
    (st : LoopState) :
    ∃ ok, (stepItem env i it st).attempts
      = st.attempts ++ [⟨i, it.upc, (itemCallPlan env i st.token).2.2, ok⟩] := by
  unfold stepItem
  by_cases h : 200 ≤ (itemCallPlan env i st.token).2.1
      ∧ (itemCallPlan env i st.token).2.1 < 300
  · exact ⟨true, by simp [h]⟩
  · exact ⟨false, by simp [h]⟩

lemma stepItem_added_snapshot (env : CartEnv) (i : Nat) (it : CartItem)
    (st : LoopState) :
    ((stepItem env i it st).addedItems = st.addedItems ++ [it]
      ∧ (stepItem env i it st).snapshot = jsMapSet st.snapshot it.upc it.quantity)
    ∨ ((stepItem env i it st).addedItems = st.addedItems
      ∧ (stepItem env i it st).snapshot = st.snapshot) := by
  unfold stepItem
  by_cases h : 200 ≤ (itemCallPlan env i st.token).2.1
      ∧ (itemCallPlan env i st.token).2.1 < 300
  · left; constructor <;> simp [h]
  · right; constructor <;> simp [h]

lemma runItems_attempts_upcs (env : CartEnv) :
    ∀ (items : List CartItem) (i : Nat) (st : LoopState),
      ((runItems env i items st).attempts).map (fun a => a.upc)
        = st.attempts.map (fun a => a.upc) ++ items.map (fun it => it.upc) := by
  intro items
  induction items with
  | nil => intro i st; simp [runItems]
  | cons it rest ih =>
      intro i st
      obtain ⟨ok, h⟩ := stepItem_attempts env i it st
      rw [runItems, ih, h]
      simp

lemma runItems_attempts_shape (env : CartEnv) :
    ∀ (items : List CartItem) (i : Nat) (st : LoopState) (a : ItemAttempt),
      a ∈ (runItems env i items st).attempts →
      a ∈ st.attempts
      ∨ (a.statuses = [env.status a.index 0]
          ∨ (a.statuses = [env.status a.index 0, env.status a.index 1]
              ∧ (env.status a.index 0 = 401 ∨ env.status a.index 0 = 403))) := by
  intro items
  induction items with
  | nil =>
      intro i st a ha
      rw [runItems] at ha
      exact Or.inl ha
  | cons it rest ih =>
      intro i st a ha
      rw [runItems] at ha
      rcases ih (i + 1) (stepItem env i it st) a ha with h | h
      · obtain ⟨ok, hs⟩ := stepItem_attempts env i it st
        rw [hs] at h
        rcases List.mem_append.mp h with h' | h'
        · exact Or.inl h'
        · have ha' : a = ⟨i, it.upc, (itemCallPlan env i st.token).2.2, ok⟩ := by
            simpa using h'
          subst ha'
          exact Or.inr (itemCallPlan_statuses env i st.token)
      · exact Or.inr h

lemma jsMapSet_append {α β : Type} [DecidableEq α] (m : List (α × β)) (k : α)
    (v : β) (h : ∀ e ∈ m, e.1 ≠ k) : jsMapSet m k v = m ++ [(k, v)] := by
  unfold jsMapSet
  have hany : m.any (fun e => e.1 = k) = false := by
    rw [List.any_eq_false]
    intro e he
    simpa using h e he
  simp [hany]

lemma runItems_snapshot (env : CartEnv) :
    ∀ (items : List CartItem) (i : Nat) (st : LoopState),
      (st.addedItems.map (fun it => it.upc)
        ++ items.map (fun it => it.upc)).Nodup →
      st.snapshot = st.addedItems.map (fun it => (it.upc, it.quantity)) →
      (runItems env i items st).snapshot
        = (runItems env i items st).addedItems.map
            (fun it => (it.upc, it.quantity)) := by
  intro items
  induction items with
  | nil =>
      intro i st _ hsnap
      rw [runItems]
      exact hsnap
  | cons it rest ih =>
      intro i st hnd hsnap
      rw [runItems]
      rcases stepItem_added_snapshot env i it st with ⟨ha, hs⟩ | ⟨ha, hs⟩
      · apply ih
        · rw [ha]
          simpa [List.append_assoc] using hnd
        · rw [hs, ha, hsnap, List.map_append]
          have hupc : it.upc ∉ st.addedItems.map (fun x => x.upc) := by
            intro hmem
            have hdisj := (List.nodup_append.mp hnd).2.2
            exact hdisj hmem (by simp)
          have := jsMapSet_append
            (st.addedItems.map (fun x => (x.upc, x.quantity))) it.upc it.quantity
            (by
              intro e he
              obtain ⟨x, hx, rfl⟩ := List.mem_map.mp he
              intro hkey
              exact hupc (List.mem_map.mpr ⟨x, hx, hkey⟩))
          simpa using this
      · apply ih
        · rw [ha]
          have hsub : (st.addedItems.map (fun x => x.upc)
              ++ rest.map (fun x => x.upc)).Sublist
              (st.addedItems.map (fun x => x.upc)
                ++ (it :: rest).map (fun x => x.upc)) := by
            apply List.Sublist.append_left
            simp [List.sublist_cons_self]
          exact hnd.sublist hsub
        · rw [hs, ha, hsnap]

lemma dedupFirstBy_go_key_nodup {α κ : Type} [DecidableEq κ] (key : α → κ) :
    ∀ (xs : List α) (seen : List κ),
      ((dedupFirstBy.go key seen xs).map key).Nodup
      ∧ ∀ k ∈ (dedupFirstBy.go key seen xs).map key, k ∉ seen := by
  intro xs
  induction xs with
  | nil => intro seen; simp [dedupFirstBy.go]
  | cons x rest ih =>
      intro seen
      by_cases h : key x ∈ seen
      · rw [dedupFirstBy.go, if_pos h]
        exact ih seen
      · have ihx := ih (key x :: seen)
        rw [dedupFirstBy.go, if_neg h]
        constructor
        · simp only [List.map_cons, List.nodup_cons]
          exact ⟨fun hmem => ihx.2 _ hmem (by simp), ihx.1⟩
        · intro k hk
          simp only [List.map_cons, List.mem_cons] at hk
          rcases hk with hk | hk
          · subst hk; exact h
          · intro hks
            exact ihx.2 k hk (by simp [hks])

lemma dedupFirstBy_key_nodup {α κ : Type} [DecidableEq κ] (key : α → κ)
    (xs : List α) : ((dedupFirstBy key xs).map key).Nodup :=
  (dedupFirstBy_go_key_nodup key xs []).1

lemma dedupFirstBy_go_find {α κ : Type} [DecidableEq κ] (key : α → κ) (u : κ) :
    ∀ (xs : List α) (seen : List κ), u ∉ seen →
      (dedupFirstBy.go key seen xs).find? (fun x => key x = u)
        = xs.find? (fun x => key x = u) := by
  intro xs
  induction xs with
  | nil => intro seen _; simp [dedupFirstBy.go]
  | cons x rest ih =>
      intro seen hu
      by_cases h : key x ∈ seen
      · rw [dedupFirstBy.go, if_pos h]
        have hne : ¬ ((fun y => decide (key y = u)) x = true) := by
          simp only [decide_eq_true_eq]
          intro he
          exact hu (he ▸ h)
        rw [ih seen hu]
        exact (@List.find?_cons_of_neg _ (fun y => decide (key y = u)) x rest hne).symm
      · rw [dedupFirstBy.go, if_neg h]
        by_cases hxu : key x = u
        · have hp : ((fun y => decide (key y = u)) x = true) := by
            simpa using hxu
          rw [@List.find?_cons_of_pos _ (fun y => decide (key y = u)) x
              (dedupFirstBy.go key (key x :: seen) rest) hp,
            @List.find?_cons_of_pos _ (fun y => decide (key y = u)) x rest hp]
        · have hp : ¬ ((fun y => decide (key y = u)) x = true) := by
            simpa using hxu
          rw [@List.find?_cons_of_neg _ (fun y => decide (key y = u)) x
              (dedupFirstBy.go key (key x :: seen) rest) hp,
            @List.find?_cons_of_neg _ (fun y => decide (key y = u)) x rest hp]
          refine ih (key x :: seen) ?_
          intro hmem
          rcases List.mem_cons.mp hmem with he | he
          · exact hxu he.symm
          · exact hu he

lemma dedupFirstBy_find {α κ : Type} [DecidableEq κ] (key : α → κ) (u : κ)
    (xs : List α) :
    (dedupFirstBy key xs).find? (fun x => key x = u)
      = xs.find? (fun x => key x = u) :=
  dedupFirstBy_go_find key u xs [] (by simp)

/-- C3: with a token available the engine attempts every sanitized,
deduplicated item exactly once in order, issuing at most two remote
calls per item and a second call only after a 401/403 first status; in
the concrete five-item scenario where item 3 fails with a 500 the run
reports 4 added, 0 skipped, and still attempts items 4 and 5. -/
theorem C3_partial_cart_add_resilience :
    (∀ (env : CartEnv) (snap0 : List (String × ℚ)) (items : List RawCartItem)
        (t0 : Nat), env.initialToken = some t0 →
        (((addKrogerItemsToCart env snap0 items).attempts).map (fun a => a.upc)
            = (dedupeByUpc (sanitizeItems items)).map (fun it => it.upc)
          ∧ ∀ a ∈ (addKrogerItemsToCart env snap0 items).attempts,
              a.statuses = [env.status a.index 0]
              ∨ (a.statuses = [env.status a.index 0, env.status a.index 1]
                  ∧ (env.status a.index 0 = 401 ∨ env.status a.index 0 = 403))))
    ∧ (addKrogerItemsToCart c3env [] c3items).addedCount = 4
    ∧ (addKrogerItemsToCart c3env [] c3items).skippedCount = 0
    ∧ ((addKrogerItemsToCart c3env [] c3items).attempts).map (fun a => a.upc)
        = ["u1", "u2", "u3", "u4", "u5"] := by
  refine ⟨?_, by decide, by decide, by decide⟩
  intro env snap0 items t0 ht
  unfold addKrogerItemsToCart
  by_cases he : (dedupeByUpc (sanitizeItems items)).isEmpty
  · have hnil : dedupeByUpc (sanitizeItems items) = [] :=
      List.isEmpty_iff.mp he
    simp [he, hnil]
  · rw [ht]
    simp only [he, Bool.false_eq_true, if_false]
    constructor
    · simpa using runItems_attempts_upcs env (dedupeByUpc (sanitizeItems items))
        0 ⟨t0, 0, [], snap0, []⟩
    · intro a ha
      have := runItems_attempts_shape env (dedupeByUpc (sanitizeItems items))
        0 ⟨t0, 0, [], snap0, []⟩ a (by simpa using ha)
      rcases this with h | h
      · simp at h
      · exact h

/-- Witness for C3: the universal part applied to the concrete scenario
environment, which has a token. -/
theorem C3_partial_cart_add_resilience_witness :
    ((addKrogerItemsToCart c3env [] c3items).attempts).map (fun a => a.upc)
      = (dedupeByUpc (sanitizeItems c3items)).map (fun it => it.upc) :=
  (C3_partial_cart_add_resilience.1 c3env [] c3items 7 rfl).1

/-- C7: an auto-add run clears the snapshot wholesale before adding, so
after the run the snapshot is exactly the (upc, quantity) pairs of the
items that succeeded in that run, and the whole outcome is independent
of whatever snapshot earlier runs had left. -/
theorem C7_snapshot_reset_semantics :
    ∀ (env : CartEnv) (snap0 snap0' : List (String × ℚ))
      (items : List RawCartItem),
      (autoAddRun env snap0 items).snapshot
        = (autoAddRun env snap0 items).addedItems.map
            (fun it => (it.upc, it.quantity))
      ∧ autoAddRun env snap0 items = autoAddRun env snap0' items := by
  intro env snap0 snap0' items
  refine ⟨?_, rfl⟩
  unfold autoAddRun clearCartSnapshotForUser addKrogerItemsToCart
  by_cases he : (dedupeByUpc (sanitizeItems items)).isEmpty
  · simp [he]
  · simp only [he, Bool.false_eq_true, if_false]
    cases env.initialToken with
    | none => simp
    | some t0 =>
        simp only
        apply runItems_snapshot
        · simpa using dedupFirstBy_key_nodup
            (fun it : CartItem => it.upc) (sanitizeItems items)
        · rfl

/-- C9: sanitation leaves no empty UPCs; deduplication keeps the first
occurrence per UPC and yields pairwise-distinct UPCs, so every distinct
UPC is attempted at most once per run; and an empty sanitized list makes
the engine return ok with zero counts, needing no authentication and
making no remote call, whatever the token situation is. -/
theorem C9_upc_filter_dedupe_empty :
    (∀ xs : List RawCartItem, ∀ it ∈ sanitizeItems xs, it.upc ≠ "")
    ∧ (∀ ys : List CartItem, ((dedupeByUpc ys).map (fun it => it.upc)).Nodup)
    ∧ (∀ (ys : List CartItem) (u : String),
        (dedupeByUpc ys).find? (fun it => it.upc = u)
          = ys.find? (fun it => it.upc = u))
    ∧ (∀ (env : CartEnv) (snap0 : List (String × ℚ))
        (items : List RawCartItem),
        dedupeByUpc (sanitizeItems items) = [] →
        addKrogerItemsToCart env snap0 items
          = ⟨true, false, 0, 0, [], [], snap0⟩)
    ∧ (∀ (env : CartEnv) (snap0 : List (String × ℚ))
        (items : List RawCartItem),
        (((addKrogerItemsToCart env snap0 items).attempts).map
          (fun a => a.upc)).Nodup) := by
  refine ⟨?_, ?_, ?_, ?_, ?_⟩
  · intro xs it hit
    unfold sanitizeItems at hit
    rw [List.mem_filter] at hit
    simpa using hit.2
  · intro ys
    exact dedupFirstBy_key_nodup (fun it : CartItem => it.upc) ys
  · intro ys u
    exact dedupFirstBy_find (fun it : CartItem => it.upc) u ys
  · intro env snap0 items h
    unfold addKrogerItemsToCart
    simp [h]
  · intro env snap0 items
    unfold addKrogerItemsToCart
    by_cases he : (dedupeByUpc (sanitizeItems items)).isEmpty
    · simp [he]
    · simp only [he, Bool.false_eq_true, if_false]
      cases env.initialToken with
      | none => simp
      | some t0 =>
          simp only
          have := runItems_attempts_upcs env
            (dedupeByUpc (sanitizeItems items)) 0 ⟨t0, 0, [], snap0, []⟩
          rw [this]
          simpa using dedupFirstBy_key_nodup
            (fun it : CartItem => it.upc) (sanitizeItems items)

/-- Witness for C9: the empty-after-filtering early return applied to a
single item whose UPC is empty, in an environment with no token at all. -/
theorem C9_upc_filter_dedupe_empty_witness :
    addKrogerItemsToCart envNoToken [] [⟨"", some 1⟩]
      = ⟨true, false, 0, 0, [], [], []⟩ :=
  C9_upc_filter_dedupe_empty.2.2.2.1 envNoToken [] [⟨"", some 1⟩] (by decide)

/-! ### Helper lemmas on deduplication and resolution -/

lemma dedupFirstBy_go_subset {α κ : Type} [DecidableEq κ] (key : α → κ) :
    ∀ (xs : List α) (seen : List κ) (x : α),
      x ∈ dedupFirstBy.go key seen xs → x ∈ xs := by
  intro xs
  induction xs with
  | nil => intro seen x hx; simp [dedupFirstBy.go] at hx
  | cons y rest ih =>
      intro seen x hx
      by_cases h : key y ∈ seen
      · rw [dedupFirstBy.go, if_pos h] at hx
        exact List.mem_cons_of_mem y (ih seen x hx)
      · rw [dedupFirstBy.go, if_neg h] at hx
        rcases List.mem_cons.mp hx with hx | hx
        · exact hx ▸ List.mem_cons_self y rest
        · exact List.mem_cons_of_mem y (ih (key y :: seen) x hx)

lemma dedupFirstBy_subset {α κ : Type} [DecidableEq κ] (key : α → κ)
    (xs : List α) (x : α) (hx : x ∈ dedupFirstBy key xs) : x ∈ xs :=
  dedupFirstBy_go_subset key xs [] x hx

lemma dedupFirstBy_ne_nil {α κ : Type} [DecidableEq κ] (key : α → κ)
    (x : α) (xs : List α) : dedupFirstBy key (x :: xs) ≠ [] := by
  unfold dedupFirstBy
  rw [dedupFirstBy.go, if_neg (by simp)]
  simp

lemma jsMapGet_map_pair {α κ : Type} [DecidableEq κ] (f : α → κ) (l : List α)
    (k : κ) :
    jsMapGet (l.map (fun p => (f p, p))) k
      = l.reverse.find? (fun p => f p = k) := by
  unfold jsMapGet
  rw [← List.map_reverse, List.find?_map]
  rw [Option.map_map]
  have : ((fun e : κ × α => e.2) ∘ fun p => (f p, p)) = id := rfl
  rw [this, Option.map_id]
  rfl

lemma filterMap_eq_map_of_all_some {α β : Type} (f : α → Option β)
    (g : α → β) :
    ∀ l : List α, (∀ x ∈ l, f x = some (g x)) → l.filterMap f = l.map g := by
  intro l
  induction l with
  | nil => intro _; rfl
  | cons x xs ih =>
      intro h
      rw [List.filterMap_cons, h x (by simp), List.map_cons,
        ih (fun y hy => h y (by simp [hy]))]

/-- C1: the extraction stage treats a one-element oracle array as a bare
ingredient with no dish name and a longer array as dish name plus
ingredient tail; an empty or unparsable oracle response makes the whole
auto-add route terminate early with empty products and ingredients,
warnings exactly `["no_ingredients"]`, and no catalog, Walmart, or cart
call. -/
theorem C1_extraction_policy_and_early_return :
    (∀ arr : List String, arr.length = 1 →
        interpretOracle (some arr) = (none, arr))
    ∧ (∀ arr : List String, 1 < arr.length →
        interpretOracle (some arr) = (arr.head?, arr.tail))
    ∧ (∀ (budget : Bool) (oracleResp : Option (List String))
        (search : String → Except Unit (List KProduct))
        (picks : List (String × List Int))
        (wsearch : String → Except Unit (List WProduct))
        (wpicks : List (String × List Int)) (loc : Option String)
        (passCount : Nat) (env : CartEnv) (snap0 : List (String × ℚ)),
        oracleResp = none ∨ oracleResp = some [] →
        (krogerSearchAutoAdd budget oracleResp search picks wsearch wpicks
            loc passCount env snap0).payload.ingredients = []
        ∧ (krogerSearchAutoAdd budget oracleResp search picks wsearch wpicks
            loc passCount env snap0).payload.warnings = [.plain "no_ingredients"]
        ∧ (krogerSearchAutoAdd budget oracleResp search picks wsearch wpicks
            loc passCount env snap0).payload.krogerProducts = []
        ∧ (krogerSearchAutoAdd budget oracleResp search picks wsearch wpicks
            loc passCount env snap0).payload.walmartProducts = []
        ∧ (krogerSearchAutoAdd budget oracleResp search picks wsearch wpicks
            loc passCount env snap0).krogerCatalogCalls = []
        ∧ (krogerSearchAutoAdd budget oracleResp search picks wsearch wpicks
            loc passCount env snap0).walmartCalls = []
        ∧ (krogerSearchAutoAdd budget oracleResp search picks wsearch wpicks
            loc passCount env snap0).cartAdd.attempts = []
        ∧ (krogerSearchAutoAdd budget oracleResp search picks wsearch wpicks
            loc passCount env snap0).cartAdd.needKrogerAuth = false) := by
  refine ⟨?_, ?_, ?_⟩
  · intro arr h
    simp [interpretOracle, h]
  · intro arr h
    simp [interpretOracle, h]
  · intro budget oracleResp search picks wsearch wpicks loc passCount env
      snap0 hor
    rcases hor with rfl | rfl <;> cases budget <;>
      exact ⟨rfl, rfl, rfl, rfl, rfl, rfl, rfl, rfl⟩

/-- Witness for C1: the one-element policy at `["ginger"]` and the early
return applied to an oracle that returns the empty array. -/
theorem C1_extraction_policy_and_early_return_witness :
    interpretOracle (some ["ginger"]) = (none, ["ginger"])
    ∧ (krogerSearchAutoAdd false (some [])
        (fun _ => Except.ok ([] : List KProduct)) []
        (fun _ => Except.ok []) [] none 20 envNoToken
        []).payload.warnings = [.plain "no_ingredients"] :=
  ⟨C1_extraction_policy_and_early_return.1 ["ginger"] rfl,
    (C1_extraction_policy_and_early_return.2.2 false (some [])
      (fun _ => Except.ok ([] : List KProduct)) [] (fun _ => Except.ok [])
      [] none 20 envNoToken [] (Or.inr rfl)).2.1⟩

/-- C4 counterexample: a run of the main controller's pipeline in which
the single ingredient has candidates but both oracle indices are out of
bounds yields zero products and an empty warning list — in particular
no `no_valid_indices` warning is emitted, contrary to the claim. -/
theorem C4_counterexample_no_warning :
    (runKrogerSearchPipeline (some ["tomato"]) (fun _ => Except.ok [c4prod])
        [("tomato", [7, -1])] none 20).products = []
    ∧ (runKrogerSearchPipeline (some ["tomato"]) (fun _ => Except.ok [c4prod])
        [("tomato", [7, -1])] none 20).warnings = [] := by decide

/-- C4 amended: indices below 0 or at or above the pool length are
dropped without effect; an ingredient whose indices are all dropped
contributes zero products, is not marked matched, and gets no
by-ingredient entry; the main controller emits no warning in this case,
while the part_000 variant of the pipeline is the one that appends
exactly the `no_valid_indices` warning. -/
theorem C4_amended_bounds_drop :
    (∀ (loc : Option String) (pools : List (String × List KProduct))
        (titlesBy : List (String × List String)) (ing : String)
        (idxs : List Int),
        (∀ i ∈ idxs, i < 0 ∨ ((lookupD titlesBy ing []).length : Int) ≤ i) →
        mapStageMain loc pools titlesBy [(ing, idxs)] = ⟨[], [], []⟩)
    ∧ (∀ (loc : Option String) (pools : List (String × List KProduct))
        (titlesBy : List (String × List String)) (ing : String)
        (idxs : List Int) (w0 : List Warning),
        idxs ≠ [] →
        (∀ i ∈ idxs, i < 0 ∨ ((lookupD titlesBy ing []).length : Int) ≤ i) →
        mapStageP0 loc pools titlesBy [(ing, idxs)] w0
          = ⟨[], [], [], w0 ++ [.ing ing "no_valid_indices" none]⟩) := by
  constructor
  · intro loc pools titlesBy ing idxs hoob
    have hres : ∀ i ∈ dedupFirst idxs,
        resolveMainHit (lookupD pools ing []) (lookupD titlesBy ing []) i
          = none := by
      intro i hi
      have hib := hoob i (dedupFirstBy_subset id idxs i hi)
      unfold resolveMainHit
      rw [if_pos hib]
    unfold mapStageMain
    simp only [List.foldl_cons, List.foldl_nil]
    rw [List.filterMap_eq_nil_iff.mpr hres]
    simp
  · intro loc pools titlesBy ing idxs w0 hne hoob
    have hidx : dedupFirst idxs ≠ [] := by
      cases idxs with
      | nil => exact absurd rfl hne
      | cons x xs => exact dedupFirstBy_ne_nil id x xs
    have hchosen : (dedupFirst idxs).filterMap (fun i =>
        if 0 ≤ i ∧ i < ((lookupD titlesBy ing []).length : Int) then
          (lookupD titlesBy ing []).get? i.toNat
        else none) = [] := by
      rw [List.filterMap_eq_nil_iff]
      intro i hi
      have hib := hoob i (dedupFirstBy_subset id idxs i hi)
      rw [if_neg]
      omega
    unfold mapStageP0
    simp only [List.foldl_cons, List.foldl_nil]
    rw [if_neg (by simpa [List.isEmpty_iff] using hidx)]
    rw [hchosen]
    simp

/-- Witness for C4: the amended statement applied to the concrete
one-product pool with the out-of-bounds indices 7 and -1. -/
theorem C4_amended_bounds_drop_witness :
    mapStageMain none [("tomato", [c4prod])] [("tomato", ["Roma Tomato"])]
        [("tomato", [7, -1])] = ⟨[], [], []⟩
    ∧ mapStageP0 none [("tomato", [c4prod])] [("tomato", ["Roma Tomato"])]
        [("tomato", [7, -1])] []
        = ⟨[], [], [], [.ing "tomato" "no_valid_indices" none]⟩ :=
  ⟨C4_amended_bounds_drop.1 none [("tomato", [c4prod])]
      [("tomato", ["Roma Tomato"])] "tomato" [7, -1] (by decide),
    C4_amended_bounds_drop.2 none [("tomato", [c4prod])]
      [("tomato", ["Roma Tomato"])] "tomato" [7, -1] [] (by decide)
      (by decide)⟩

/-- C5 counterexample: the part_000 mapping stage consults the
normalized-title map before the exact match, so the chosen title
"Milk!" — which has an exact match in the pool — resolves to the other
record "Milk" (the last record with the same normalized title), both at
the resolution function and in a full stage run. -/
theorem C5_counterexample_normalized_first :
    resolveTitleP0 [c5A, c5B] "Milk!" = some c5B
    ∧ c5A.description = "Milk!" ∧ c5B.description = "Milk"
    ∧ (mapStageP0 none [("milkling", [c5A, c5B])]
        [("milkling", ["Milk!", "Milk"])] [("milkling", [0])] []).products
        = [normalizeKroger c5B none] := by decide

/-- C5 amended: in the part_000 pipeline a surviving title is resolved
by normalized title first — the last pool record with the matching
normalized title wins — and only when no normalized match exists by
exact description match; the main controller's Walmart stage resolves by
exact name first and otherwise by the last normalized match; the main
controller's Kroger stage falls back positionally to `pool[i]` when the
exact description match fails; when none of an entry's chosen titles
resolves, the part_000 stage contributes no product and appends exactly
one `title_not_in_pool` warning per title plus `no_confident_match`;
and the main controller emits no warning after candidate fetch: the
pipeline's warnings do not depend on the oracle picks, and the route
payload's warnings are exactly the Kroger pipeline's, untouched by the
Walmart stage. -/
theorem C5_amended_resolution_order :
    (∀ (pool : List KProduct) (t : String),
        (∀ p ∈ pool, normTitle p.description ≠ normTitle t) →
        resolveTitleP0 pool t = pool.find? (fun p => p.description = t))
    ∧ (∀ (pool : List KProduct) (t : String) (p : KProduct),
        pool.reverse.find? (fun q => normTitle q.description = normTitle t)
          = some p →
        resolveTitleP0 pool t = some p)
    ∧ (∀ (pool : List WProduct) (t : String) (p : WProduct),
        pool.find? (fun it => it.name = t) = some p →
        resolveTitleW pool t = some p)
    ∧ (∀ (pool : List WProduct) (t : String),
        pool.find? (fun it => it.name = t) = none →
        resolveTitleW pool t
          = pool.reverse.find? (fun it => normTitle it.name = normTitle t))
    ∧ (∀ (pool : List KProduct) (titles : List String) (i : Int),
        0 ≤ i → i < (titles.length : Int) →
        pool.find? (fun p => p.description = titles.getD i.toNat "") = none →
        resolveMainHit pool titles i = pool.get? i.toNat)
    ∧ (∀ (loc : Option String) (pools : List (String × List KProduct))
        (titlesBy : List (String × List String)) (ing : String)
        (idxs : List Int) (w0 : List Warning) (chosen : List String),
        chosen = (dedupFirst idxs).filterMap (fun i =>
          if 0 ≤ i ∧ i < ((lookupD titlesBy ing []).length : Int) then
            (lookupD titlesBy ing []).get? i.toNat
          else none) →
        chosen ≠ [] →
        (∀ t ∈ chosen, resolveTitleP0 (lookupD pools ing []) t = none) →
        mapStageP0 loc pools titlesBy [(ing, idxs)] w0
          = ⟨[], [], [],
              w0 ++ chosen.map
                  (fun t => Warning.ing ing "title_not_in_pool" (some t))
                ++ [Warning.ing ing "no_confident_match" none]⟩)
    ∧ (∀ (oracleResp : Option (List String))
        (search : String → Except Unit (List KProduct))
        (picks picks2 : List (String × List Int)) (loc : Option String)
        (passCount : Nat),
        (runKrogerSearchPipeline oracleResp search picks loc
          passCount).warnings
          = (runKrogerSearchPipeline oracleResp search picks2 loc
              passCount).warnings)
    ∧ (∀ (budget : Bool) (oracleResp : Option (List String))
        (search : String → Except Unit (List KProduct))
        (picks : List (String × List Int))
        (wsearch : String → Except Unit (List WProduct))
        (wpicks : List (String × List Int)) (loc : Option String)
        (passCount : Nat) (env : CartEnv) (snap0 : List (String × ℚ)),
        (krogerSearchAutoAdd budget oracleResp search picks wsearch wpicks
            loc passCount env snap0).payload.warnings
          = (runKrogerSearchPipeline oracleResp search picks loc
              passCount).warnings) := by
  refine ⟨?_, ?_, ?_, ?_, ?_, ?_, ?_, ?_⟩
  · intro pool t hno
    unfold resolveTitleP0
    rw [jsMapGet_map_pair]
    rw [List.find?_eq_none.mpr]
    · rfl
    · intro p hp
      simpa using hno p (List.mem_reverse.mp hp)
  · intro pool t p hfind
    unfold resolveTitleP0
    rw [jsMapGet_map_pair, hfind]
    rfl
  · intro pool t p hfind
    unfold resolveTitleW
    rw [hfind]
    rfl
  · intro pool t hfind
    unfold resolveTitleW
    rw [hfind, jsMapGet_map_pair]
    rfl
  · intro pool titles i h0 hlen hfind
    unfold resolveMainHit
    rw [if_neg (by omega)]
    dsimp only
    rw [hfind]
    rfl
  · intro loc pools titlesBy ing idxs w0 chosen hchosen hne hmiss
    have hidx : ¬ (dedupFirst idxs).isEmpty = true := by
      intro h
      rw [List.isEmpty_iff] at h
      apply hne
      rw [hchosen, h]
      rfl
    unfold mapStageP0
    simp only [List.foldl_cons, List.foldl_nil]
    rw [if_neg hidx]
    rw [← hchosen]
    rw [if_neg (by simpa [List.isEmpty_iff] using hne)]
    have hrecs : (chosen.map (fun t =>
        (t, resolveTitleP0 (lookupD pools ing []) t))).filterMap
          (fun r => r.2) = [] := by
      rw [List.filterMap_eq_nil_iff]
      intro r hr
      obtain ⟨t, ht, rfl⟩ := List.mem_map.mp hr
      exact hmiss t ht
    have hmisses : (chosen.map (fun t =>
        (t, resolveTitleP0 (lookupD pools ing []) t))).filterMap
          (fun r : String × Option KProduct =>
            match r.2 with
            | some _ => none
            | none => some (Warning.ing ing "title_not_in_pool" (some r.1)))
        = chosen.map (fun t => Warning.ing ing "title_not_in_pool" (some t)) := by
      rw [List.filterMap_map]
      apply filterMap_eq_map_of_all_some
      intro t ht
      simp [hmiss t ht]
    rw [hrecs, hmisses]
    simp
  · intro oracleResp search picks picks2 loc passCount
    simp only [runKrogerSearchPipeline,
      apply_ite (fun r : KrogerPipelineResult => r.warnings)]
  · intro budget oracleResp search picks wsearch wpicks loc passCount env
      snap0
    cases budget
    · rfl
    · rfl

/-- Witness for C5: the normalized-first branch applied at the concrete
two-record pool, the positional fallback at a pool whose description
differs from the enumerated title, and the part_000 stage run on a
single chosen title that resolves to nothing, which contributes no
product and appends `title_not_in_pool` followed by
`no_confident_match`. -/
theorem C5_amended_resolution_order_witness :
    resolveTitleP0 [c5A, c5B] "Milk!" = some c5B
    ∧ resolveMainHit [c5B] ["Milk?"] 0 = some c5B
    ∧ mapStageP0 none [("milkling", [c5A])] [("milkling", ["Cream"])]
        [("milkling", [0])] []
        = ⟨[], [], [],
            [Warning.ing "milkling" "title_not_in_pool" (some "Cream"),
              Warning.ing "milkling" "no_confident_match" none]⟩ :=
  ⟨C5_amended_resolution_order.2.1 [c5A, c5B] "Milk!" c5B (by decide),
    C5_amended_resolution_order.2.2.2.2.1 [c5B] ["Milk?"] 0 (by decide)
      (by decide) (by decide),
    by
      have := C5_amended_resolution_order.2.2.2.2.2.1 none
        [("milkling", [c5A])] [("milkling", ["Cream"])] "milkling" [0] []
        ["Cream"] (by decide) (by decide) (by decide)
      simpa using this⟩

/-- C10 counterexample: a run whose oracle output lists the ingredient
"salt" twice, where the catalog returns candidates but the oracle picks
nothing, forwards the non-deduplicated list `["salt", "salt"]` to the
Walmart matching stage. -/
theorem C10_counterexample_duplicate_terms :
    walmartTermsFor false (runKrogerSearchPipeline
        (some ["soup", "salt", "salt"]) (fun _ => Except.ok [c10prod]) []
        none 20)
      = ["salt", "salt"]
    ∧ ¬ (walmartTermsFor false (runKrogerSearchPipeline
        (some ["soup", "salt", "salt"]) (fun _ => Except.ok [c10prod]) []
        none 20)).Nodup := by decide

/-- C10 amended: in non-budget mode the forwarded list has at most 6
terms; when it is derived from warnings it is lower-cased and
deduplicated (and is exactly what is forwarded whenever it is
non-empty); the unmatched-ingredient fallback is capped but not
deduplicated, deduplication happening instead inside the Walmart stage,
whose call list is always the deduplicated truthy terms; budget mode
forwards the full ingredient list with no cap. -/
theorem C10_amended_term_forwarding :
    (∀ k : KrogerPipelineResult, (walmartTermsFor false k).length ≤ 6)
    ∧ (∀ warnings : List Warning,
        (extractUnmatchedTerms warnings).Nodup
        ∧ (extractUnmatchedTerms warnings).length ≤ 6
        ∧ ∀ t ∈ extractUnmatchedTerms warnings, ∃ s, t = asciiLowerStr s)
    ∧ (∀ k : KrogerPipelineResult,
        ¬ (extractUnmatchedTerms k.warnings).isEmpty = true →
        walmartTermsFor false k = extractUnmatchedTerms k.warnings)
    ∧ (∀ k : KrogerPipelineResult, walmartTermsFor true k = k.ingredients)
    ∧ (∀ (terms : List String)
        (wsearch : String → Except Unit (List WProduct)) (passCount : Nat)
        (wpicks : List (String × List Int)),
        (runWalmartMatchByIndexDetailed terms wsearch passCount wpicks).calls
          = dedupFirst (terms.filter (fun t => t ≠ ""))
        ∧ ((runWalmartMatchByIndexDetailed terms wsearch passCount
            wpicks).calls).Nodup) := by
  refine ⟨?_, ?_, ?_, ?_, ?_⟩
  · intro k
    unfold walmartTermsFor
    rw [if_neg (by simp)]
    by_cases h : ¬ (extractUnmatchedTerms k.warnings).isEmpty = true
    · rw [if_pos h]
      unfold extractUnmatchedTerms
      exact List.length_take_le 6 _
    · rw [if_neg h]
      exact List.length_take_le 6 _
  · intro warnings
    refine ⟨?_, ?_, ?_⟩
    · unfold extractUnmatchedTerms
      apply List.Nodup.sublist (List.take_sublist 6 _)
      have := dedupFirstBy_key_nodup id ((warnings.filterMap (fun w =>
        match w with
        | .plain _ => none
        | .ing ingredient error _ =>
            if jsTrim ingredient ≠ "" ∧ error ∈ unmatchCodes then
              some (jsTrim ingredient)
            else none)).map asciiLowerStr)
      simpa using this
    · unfold extractUnmatchedTerms
      exact List.length_take_le 6 _
    · intro t ht
      unfold extractUnmatchedTerms at ht
      have ht2 := dedupFirstBy_subset id _ t (List.mem_of_mem_take ht)
      obtain ⟨s, _, hs⟩ := List.mem_map.mp ht2
      exact ⟨s, hs.symm⟩
  · intro k h
    unfold walmartTermsFor
    rw [if_neg (by simp), if_pos h]
  · intro k
    unfold walmartTermsFor
    rw [if_pos rfl]
  · intro terms wsearch passCount wpicks
    constructor
    · unfold runWalmartMatchByIndexDetailed
      by_cases h : (dedupFirst (terms.filter (fun t => t ≠ ""))).isEmpty = true
      · rw [if_pos h]
        exact (List.isEmpty_iff.mp h).symm
      · rw [if_neg h]
    · unfold runWalmartMatchByIndexDetailed
      by_cases h : (dedupFirst (terms.filter (fun t => t ≠ ""))).isEmpty = true
      · rw [if_pos h]
        exact List.nodup_nil
      · rw [if_neg h]
        have := dedupFirstBy_key_nodup id (terms.filter (fun t => t ≠ ""))
        simpa using this

/-- Witness for C10: the warning-derived branch applied at a concrete
pipeline result with one unmatched-code warning. -/
theorem C10_amended_term_forwarding_witness :
    walmartTermsFor false c10kres = extractUnmatchedTerms c10kres.warnings :=
  C10_amended_term_forwarding.2.2.1 c10kres (by decide)

end SmartEcom
